import Mathlib

/-!
# Verification of the autopromptr-backend element-targeting and batch engine

Shallow embedding of the core logic of the repository:

* `automateForm` (src/automation.js, first document; the Playwright variant in
  src/unnamed/part_000 shares the same selector catalogs and scan structure):
  element resolution over ordered selector catalogs, the generic focusable
  fallback pass, click/focus, best-effort clearing, typing, submit-control
  resolution and submission, and the catch-all that turns every thrown error
  into a returned result with a `code` extracted from the message.
* `retryAction` (src/unnamed/part_000, lines 34-54): the bounded retry loop.
* `processBatch` (src/batchProcessor.ts): browser lifetime around the retry
  loop over `automateForm`.
* the `/api/run-batch` prompt loop (src/automation.js, lines 960-1008 of the
  concatenated file): per-prompt bookkeeping and the final batch status.
* the in-memory `batchStatus` map updates of src/browserService.ts
  (`processEnhancedBatch` and the `/api/stop-batch/:batchId` endpoint).

Browser-environment behaviour (what a DOM query returns, whether a click or a
keypress throws) is an oracle supplied through the `Page` structure; element
handles carry their `isVisible`/`isEnabled` answers as fields.  Timer waits
(`waitForTimeout`, retry delays) are modelled as pure; the delays requested by
the retry loop are recorded in its output so that claims about them can be
stated.  Log statements of the source are elided: only data that flows into
returned values or the store is modelled.
-/

namespace AutoPromptr

/-- A resolved element handle.  `visible`/`enabled` are the answers the
Playwright `isVisible()` / `isEnabled()` probes give for this handle
(modelled as stable attributes of the handle). `id` distinguishes nodes. -/
structure Elem where
  id : Nat
  visible : Bool
  enabled : Bool
deriving DecidableEq, Repr

/-- Outcome of `page.$$(selector)` / `page.$(selector)`: either the query
itself throws (caught by the source's per-selector `try`/`catch`) or it
returns the matching nodes in DOM order (`page.$` is the head of that list). -/
inductive QueryRes where
  | err (msg : String)
  | found (elems : List Elem)
deriving DecidableEq, Repr

/-- The browser-environment oracle seen by `automateForm`.

The first eight fields are consulted by the code.  The last three record
*observable page effects* (did a clearing strategy actually clear the field,
was a submission registered by the target site); the source never reads them,
which is exactly what claim C3 is about. -/
structure Page where
  query : String → QueryRes
  clickThrows : Elem → Option (List String)
  focusThrows : Elem → Option (List String)
  selectTextThrows : Elem → Bool
  deleteKeyThrows : Bool
  fillThrows : Elem → Bool
  typeThrows : Elem → Option (List String)
  enterKeyThrows : Option (List String)
  selectDeleteClears : Elem → Bool
  fillClears : Elem → Bool
  submissionDetected : Bool

/-- `defaultInputSelectors` of `automateForm` (src/automation.js:22-29). -/
def defaultInputSelectors : List String :=
  ["input[type=\"text\"]",
   "input[type=\"email\"]",
   "input[type=\"search\"]",
   "input:not([type=\"hidden\"]):not([type=\"submit\"]):not([type=\"button\"])",
   "textarea",
   "[contenteditable=\"true\"]"]

/-- The hard-coded focusable fallback list (src/automation.js:65-71). -/
def focusableSelectors : List String :=
  ["button", "input", "textarea", "select", "[tabindex]:not([tabindex=\"-1\"])"]

/-- `defaultSubmitSelectors` of `automateForm` (src/automation.js:125-133). -/
def defaultSubmitSelectors : List String :=
  ["button[type=\"submit\"]",
   "input[type=\"submit\"]",
   "button:has-text(\"Send\")",
   "button:has-text(\"Submit\")",
   "button:has-text(\"Search\")",
   "[data-testid*=\"send\"]",
   "[aria-label*=\"send\"]"]

/-- Whether a node passes the `isVisible && isEnabled` interactability test. -/
def interactable (e : Elem) : Bool := e.visible && e.enabled

/-- The role-specific resolution pass (src/automation.js:37-60): for each
selector in order, query all nodes and take the first visible+enabled one;
a selector whose query throws is skipped.  Returns the selector that matched
together with the node. -/
def primaryScan (q : String → QueryRes) : List String → Option (String × Elem)
  | [] => none
  | s :: rest =>
    match q s with
    | .err _ => primaryScan q rest
    | .found elems =>
      match elems.find? interactable with
      | some e => some (s, e)
      | none => primaryScan q rest

/-- The generic focusable fallback pass (src/automation.js:73-89).  Mirrors
the source exactly: `targetElement` is overwritten with `page.$(selector)`
on every iteration (so it can end as a residual non-visible node of the last
selector examined), only the head node is inspected, and only `isVisible` is
tested.  A query that throws leaves the accumulator unchanged. -/
def fallbackScan (q : String → QueryRes) : List String → Option Elem → Option Elem
  | [], acc => acc
  | s :: rest, acc =>
    match q s with
    | .err _ => fallbackScan q rest acc
    | .found elems =>
      match elems.head? with
      | none => fallbackScan q rest none
      | some e => if e.visible then some e else fallbackScan q rest (some e)

/-- Full input-element resolution (both passes, src/automation.js:37-94). -/
def findTarget (q : String → QueryRes) (customInputSelectors : List String) : Option Elem :=
  match primaryScan q (customInputSelectors ++ defaultInputSelectors) with
  | some se => some se.2
  | none => fallbackScan q focusableSelectors none

/-- The submit-control scan (src/automation.js:140-158).  As in the source,
`submitButton` is reassigned to `page.$(selector)` each iteration: the loop
breaks (second component `true`) only when the head node is visible and
enabled, but a failing head node is left behind as a residual value, and a
throwing query leaves the previous value in place. -/
def submitScan (q : String → QueryRes) : List String → Option Elem → Option Elem × Bool
  | [], acc => (acc, false)
  | s :: rest, acc =>
    match q s with
    | .err _ => submitScan q rest acc
    | .found elems =>
      match elems.head? with
      | none => submitScan q rest none
      | some e => if interactable e then (some e, true) else submitScan q rest (some e)

/-- The click-then-focus step (src/automation.js:98-103): both calls sit in
one `try`; the first throw wins. -/
def clickFocusOutcome (p : Page) (e : Elem) : Option (List String) :=
  match p.clickThrows e with
  | some m => some m
  | none => p.focusThrows e

/-- The field-clearing phase (src/automation.js:106-117): strategy 0 is
`selectText()` + `Delete` keypress, strategy 1 is `fill('')`.  The accepted
strategy (the one whose "Field cleared" log fires) is the first that does not
throw; `none` means both threw and the code proceeds anyway.  Note that no
field of the result depends on whether the field was observably cleared. -/
def clearFieldStrategy (p : Page) (e : Elem) : Option Nat :=
  if !p.selectTextThrows e && !p.deleteKeyThrows then some 0
  else if !p.fillThrows e then some 1
  else none

/-- `InteractionResult` as returned by `automateForm`: the `success:true`
record carries `method`, the `success:false` record carries the error message
and the `code` extracted from it. -/
structure AutomationResult where
  success : Bool
  method : Option String
  errorMsg : Option (List String)
  code : Option String
deriving DecidableEq, Repr

/-- Error messages are represented by the list of segments that
`message.split(':')` yields, in order; a message built by prefixing an error
kind is the kind followed by the detail segments (only the head segment is
ever inspected by the code, so the merging of a prefix's trailing segment
with a detail's leading segment is immaterial).
`error.message.split(':')[0] || 'UNKNOWN_ERROR'` (src/automation.js:199) is
then the head segment, or `UNKNOWN_ERROR` when it is empty (the empty string
is falsy in the source language; `split` never yields an empty list). -/
def extractCode (msg : List String) : String :=
  if msg.headD "" = "" then "UNKNOWN_ERROR" else msg.headD ""

/-- Build the `success:false` result produced by the outer catch
(src/automation.js:191-201). -/
def failRes (msg : List String) : AutomationResult :=
  { success := false, method := none, errorMsg := some msg, code := some (extractCode msg) }

/-- The Interaction Executor `automateForm` (src/automation.js:1-202).
Every thrown step error is converted by the outer catch into a returned
`success:false` result, so the model is a total function into
`AutomationResult`.  Message interpolation beyond the error-kind prefix and
its first colon is abbreviated (only the first colon-segment ever flows into
`code`). -/
def automateForm (p : Page) (customInputSelectors customSubmitSelectors : List String) :
    AutomationResult :=
  match findTarget p.query customInputSelectors with
  | none =>
    failRes ["NO_INPUT_ELEMENT_FOUND",
             " No suitable input or focusable element found on the page"]
  | some target =>
    match clickFocusOutcome p target with
    | some m =>
      failRes ("ELEMENT_NOT_INTERACTABLE" :: " Could not click or focus on target element" :: m)
    | none =>
      -- clearing is attempted here; its outcome only reaches the logs
      let _cleared := clearFieldStrategy p target
      match p.typeThrows target with
      | some m => failRes m
      | none =>
        match submitScan p.query (customSubmitSelectors ++ defaultSubmitSelectors) none with
        | (some btn, _) =>
          match p.clickThrows btn with
          | some m =>
            failRes ("SUBMIT_BUTTON_CLICK_FAILED" :: " Could not click submit button" :: m)
          | none =>
            { success := true, method := some "button_click", errorMsg := none, code := none }
        | (none, _) =>
          match p.enterKeyThrows with
          | some m =>
            failRes ("ENTER_KEY_SUBMIT_FAILED" :: " Could not submit form via Enter key" :: m)
          | none =>
            { success := true, method := some "enter_key", errorMsg := none, code := none }

/-! ## Retry controller (`retryAction`, src/unnamed/part_000:34-54) -/

/-- One run of `retryAction`.  `fn i` is the outcome of the `i`-th invocation
of the wrapped operation (errors are the thrown messages).  Returns the final
outcome, the number of invocations of `fn`, and the list of delays waited
(each `retryDelay`, in the order they were waited).

`retryAux fn retryDelay attempt k` models the `while (attempt < maxRetries)`
loop with `k = maxRetries - attempt` iterations left; the `k = 0` base case is
the unreachable-looking `throw new Error("retryAction: Max retries exceeded")`
after the loop (reached only when `maxRetries = 0`). -/
def retryAux {α : Type} (fn : Nat → Except String α) (retryDelay : Nat) :
    Nat → Nat → Except String α × Nat × List Nat
  | _, 0 => (.error "retryAction: Max retries exceeded", 0, [])
  | attempt, k + 1 =>
    match fn attempt with
    | .ok a => (.ok a, 1, [])
    | .error e =>
      if k = 0 then (.error e, 1, [])
      else
        let r := retryAux fn retryDelay (attempt + 1) k
        (r.1, r.2.1 + 1, retryDelay :: r.2.2)

/-- `retryAction(fn, maxRetries, retryDelay)`. -/
def retryAction {α : Type} (fn : Nat → Except String α) (maxRetries retryDelay : Nat) :
    Except String α × Nat × List Nat :=
  retryAux fn retryDelay 0 maxRetries

/-! ## Batch processor (`processBatch`, src/batchProcessor.ts) -/

/-- Outcome of one `automateForm` call inside `processBatch`: the returned
result was a success, the returned result was a failure (the `success:false`
branch is logged and the loop retries), or the call itself threw (caught by
the in-loop `catch`, which also just retries). -/
inductive FormOutcome where
  | success
  | failedResult (err : String)
  | thrown (msg : String)
deriving DecidableEq, Repr

/-- Environment oracle for one `processBatch` run: which lifecycle steps
throw, and the outcome of the `i`-th `automateForm` attempt. -/
structure BPEnv where
  launchThrows : Option String
  pageSetupThrows : Option String
  hasTargetUrl : Bool
  gotoThrows : Option String
  waitForIdle : Bool
  networkIdleTimesOut : Bool
  maxRetries : Nat
  retryDelay : Nat
  formAttempt : Nat → FormOutcome
  screenshotThrows : Bool

/-- Observable result of a `processBatch` run: the returned record's status
and error, how many `automateForm` attempts ran, the delays waited between
attempts, and whether the browser was launched / `browser.close()` reached. -/
structure BPResult where
  status : String
  errorField : Option String
  attempts : Nat
  delays : List Nat
  launched : Bool
  closed : Bool
deriving DecidableEq, Repr

/-- The retry loop of `processBatch` (src/batchProcessor.ts:100-144).
`automationResult` keeps its previous value across a thrown attempt (the
`catch` assigns nothing), so the loop result is the last *returned*
`automateForm` outcome, `none` if every attempt threw or `maxRetries = 0`.
Returns (last returned outcome, attempts made, delays waited). -/
def bpLoop (env : BPEnv) : Nat → Nat → Option FormOutcome → Option FormOutcome × Nat × List Nat
  | _, 0, acc => (acc, 0, [])
  | attempt, k + 1, acc =>
    match env.formAttempt attempt with
    | .success => (some .success, 1, [])
    | .failedResult e =>
      if k = 0 then (some (.failedResult e), 1, [])
      else
        let r := bpLoop env (attempt + 1) k (some (.failedResult e))
        (r.1, r.2.1 + 1, env.retryDelay :: r.2.2)
    | .thrown _ =>
      if k = 0 then (acc, 1, [])
      else
        let r := bpLoop env (attempt + 1) k acc
        (r.1, r.2.1 + 1, env.retryDelay :: r.2.2)

/-- `processBatch` (src/batchProcessor.ts:37-209).  The `finally` block calls
`browser.close()` whenever `browser` was assigned, on every exit path; the
outer `catch` turns any thrown error into a `status: "failed"` record. -/
def processBatch (env : BPEnv) : BPResult :=
  match env.launchThrows with
  | some m =>
    -- `browser` never assigned: the finally block skips `close()`
    { status := "failed", errorField := some m, attempts := 0, delays := [],
      launched := false, closed := false }
  | none =>
    match env.pageSetupThrows with
    | some m =>
      { status := "failed", errorField := some m, attempts := 0, delays := [],
        launched := true, closed := true }
    | none =>
      match (if env.hasTargetUrl then env.gotoThrows else none) with
      | some m =>
        { status := "failed", errorField := some m, attempts := 0, delays := [],
          launched := true, closed := true }
      | none =>
        -- a network-idle timeout is caught and only logged
        let r := bpLoop env 0 env.maxRetries none
        -- a screenshot error is caught and only logged
        { status := (match r.1 with | some .success => "completed" | _ => "failed"),
          errorField := none, attempts := r.2.1, delays := r.2.2,
          launched := true, closed := true }

/-! ## The `/api/run-batch` prompt loop (src/automation.js:960-1008) -/

/-- What one iteration of the prompt loop observes from its callee: the
`automateForm` promise resolved with a result, or it (or the in-loop delay)
rejected and the `catch (promptError)` branch ran. -/
inductive PromptOutcome where
  | ok (r : AutomationResult)
  | thrown (msg : String)
deriving DecidableEq, Repr

/-- The per-prompt record pushed onto `results`. -/
structure PromptRecord where
  status : String
  errorMsg : Option String
deriving DecidableEq, Repr

/-- Aggregate state of one run of the prompt loop. -/
structure BatchRun where
  results : List PromptRecord
  successCount : Nat
  failureCount : Nat
  finalStatus : String
deriving DecidableEq, Repr

/-- The record pushed for an outcome: a resolved `automateForm` promise is
recorded with status `completed` (even when the result inside carries
`success:false`), a rejection is recorded with status `failed`. -/
def recordOf : PromptOutcome → PromptRecord
  | .ok _ => { status := "completed", errorMsg := none }
  | .thrown m => { status := "failed", errorMsg := some m }

/-- `finalStatus` after the loop (src/automation.js:1007-1008). -/
def finalStatusOf (successCount failureCount : Nat) : String :=
  if failureCount = 0 then "completed"
  else if successCount = 0 then "failed" else "completed_with_errors"

/-- The prompt loop body (src/automation.js:960-1004): on a resolved promise
push a `completed` record and increment `successCount`; on a rejection push a
`failed` record, increment `failureCount`, and break out of the loop as soon
as `failureCount >= maxRetries`.  Returns (records in push order,
successCount, failureCount). -/
def runBatchAux (maxRetries : Nat) :
    List PromptOutcome → Nat → Nat → List PromptRecord × Nat × Nat
  | [], s, f => ([], s, f)
  | o :: rest, s, f =>
    match o with
    | .ok r =>
      let t := runBatchAux maxRetries rest (s + 1) f
      (recordOf (.ok r) :: t.1, t.2)
    | .thrown m =>
      if f + 1 ≥ maxRetries then ([recordOf (.thrown m)], s, f + 1)
      else
        let t := runBatchAux maxRetries rest s (f + 1)
        (recordOf (.thrown m) :: t.1, t.2)

/-- One full run of the `/api/run-batch` prompt loop: `outcomes` lists what
each prompt's iteration would observe, in `order`. -/
def runBatchLoop (outcomes : List PromptOutcome) (maxRetries : Nat) : BatchRun :=
  let t := runBatchAux maxRetries outcomes 0 0
  { results := t.1, successCount := t.2.1, failureCount := t.2.2,
    finalStatus := finalStatusOf t.2.1 t.2.2 }

/-- Number of outcomes that would take the `catch` path. -/
def thrownCount (outcomes : List PromptOutcome) : Nat :=
  outcomes.countP (fun o => match o with | .thrown _ => true | .ok _ => false)

/-! ## `batchStatus` map updates (src/browserService.ts) -/

/-- The `progress` object stored in the in-memory `batchStatus` map. -/
structure BatchProgress where
  completed : Nat
  total : Nat
  percentage : Nat
  failed : Nat
  processing : Nat
  pending : Nat
deriving DecidableEq, Repr

/-- One `batchStatus` map entry (status string plus progress). -/
structure BatchStatusRec where
  status : String
  progress : BatchProgress
deriving DecidableEq, Repr

/-- The entry written when `/api/run-batch` starts a batch of `n` prompts
(src/browserService.ts:197-213). -/
def initBatchStatus (n : Nat) : BatchStatusRec :=
  { status := "processing",
    progress := { completed := 0, total := n, percentage := 0, failed := 0,
                  processing := 1, pending := n - 1 } }

/-- The `/api/stop-batch/:batchId` update (src/browserService.ts:348-378):
only an entry currently in `processing` is moved to `stopped`; any other
status leaves the entry unchanged (the endpoint answers 400). -/
def stopBatchUpdate (cur : BatchStatusRec) : BatchStatusRec :=
  if cur.status = "processing" then { cur with status := "stopped" } else cur

/-- `Math.round((completed / total) * 100)` over naturals. -/
def roundPct (completed total : Nat) : Nat := (completed * 200 + total) / (2 * total)

/-- The final write of `processEnhancedBatch` when `automatePrompts` resolves
(src/browserService.ts:264-279): it spreads the *current* map entry and
unconditionally overwrites `status` with `completed` and the progress with
`processing: 0, pending: 0` — there is no check of a stop flag anywhere in
`processEnhancedBatch`. -/
def completeBatchUpdate (cur : BatchStatusRec) (completed failed total : Nat) :
    BatchStatusRec :=
  { cur with
    status := "completed",
    progress := { completed := completed, total := total,
                  percentage := roundPct completed total, failed := failed,
                  processing := 0, pending := 0 } }

/-- The final write when `automatePrompts` rejects
(src/browserService.ts:289-297). -/
def failBatchUpdate (cur : BatchStatusRec) : BatchStatusRec :=
  { cur with status := "failed" }

/-! ## Concrete browser environments used as test inputs -/

/-- A visible, enabled textarea node. -/
def taElem : Elem := { id := 1, visible := true, enabled := true }

/-- A hidden (but enabled) node matching the `[aria-label*="send"]` selector. -/
def hiddenSendBtn : Elem := { id := 2, visible := false, enabled := true }

/-- A visible but disabled button. -/
def visDisabledBtn : Elem := { id := 3, visible := true, enabled := false }

/-- A hidden button standing in front of a visible one. -/
def hiddenBtn2 : Elem := { id := 4, visible := false, enabled := true }

/-- A visible, enabled button occurring after `hiddenBtn2` in DOM order. -/
def visEnabledBtn : Elem := { id := 5, visible := true, enabled := true }

/-- A visible, enabled `button[type="submit"]` node. -/
def submitBtn : Elem := { id := 6, visible := true, enabled := true }

/-- A page whose only environment variability is the DOM query answer: no
interaction ever throws, no clearing strategy observably clears the field,
and no submission is ever detected by the target site. -/
def basePage (q : String → QueryRes) : Page :=
  { query := q, clickThrows := fun _ => none, focusThrows := fun _ => none,
    selectTextThrows := fun _ => false, deleteKeyThrows := false,
    fillThrows := fun _ => false, typeThrows := fun _ => none,
    enterKeyThrows := none, selectDeleteClears := fun _ => false,
    fillClears := fun _ => true, submissionDetected := false }

/-- A page with a usable textarea, no interactable submit control anywhere,
but a hidden node matching the last default submit selector. -/
def pResidualSubmit : Page :=
  basePage (fun s =>
    if s = "textarea" then .found [taElem]
    else if s = "[aria-label*=\"send\"]" then .found [hiddenSendBtn]
    else .found [])

/-- A page on which every query matches nothing. -/
def pEmptyPage : Page := basePage (fun _ => .found [])

/-- A page with a usable textarea and a genuine visible+enabled submit
button. -/
def pRealSubmit : Page :=
  basePage (fun s =>
    if s = "textarea" then .found [taElem]
    else if s = "button[type=\"submit\"]" then .found [submitBtn]
    else .found [])

/-- Like `pRealSubmit`, but every clearing strategy throws. -/
def pAllClearThrow : Page :=
  { basePage (fun s =>
      if s = "textarea" then .found [taElem]
      else if s = "button[type=\"submit\"]" then .found [submitBtn]
      else .found []) with
    selectTextThrows := fun _ => true, fillThrows := fun _ => true }

/-- A page whose only focusable node is a visible but disabled button. -/
def pFallbackDisabled : Page :=
  basePage (fun s => if s = "button" then .found [visDisabledBtn] else .found [])

/-- Like `pFallbackDisabled`, but with an extra node behind the head of the
`button` query and a different answer on a non-fallback selector. -/
def pFallbackDisabledB : Page :=
  basePage (fun s =>
    if s = "button" then .found [visDisabledBtn, visEnabledBtn]
    else if s = "input[type=\"text\"]" then .found [taElem]
    else .found [])

/-- A page where the `button` query returns a hidden node first and a
visible, enabled node second, and nothing else matches. -/
def pFallbackSkip : Page :=
  basePage (fun s => if s = "button" then .found [hiddenBtn2, visEnabledBtn] else .found [])

/-! ## Helper functions used in claim statements -/

/-- The nodes a selector contributes to the scan (a throwing query
contributes none, because the per-selector catch just moves on). -/
def queryElems (q : String → QueryRes) (s : String) : List Elem :=
  match q s with
  | .err _ => []
  | .found l => l

/-- What the single-node `page.$(selector)` probe of the fallback pass sees:
`none` when the query throws, otherwise the head node of the match list (if
any). -/
def queryFirst (q : String → QueryRes) (s : String) : Option (Option Elem) :=
  match q s with
  | .err _ => none
  | .found l => some l.head?

/-- Number of outcomes whose `automateForm` promise resolved. -/
def okCount (outcomes : List PromptOutcome) : Nat :=
  outcomes.countP (fun o => match o with | .ok _ => true | .thrown _ => false)

/-! ## Claim theorems -/

/-- C2 (code bug): the spec requires that a stop signal set before prompt `k`
starts leaves prompts `k..n` pending and ends the batch in `stopped`.  On the
code, the `/api/stop-batch` endpoint does move a `processing` entry to
`stopped`, but `processEnhancedBatch` never consults the flag and its
completion write unconditionally overwrites the entry with status
`completed` and `pending := 0`: for a 2-prompt batch stopped before any
prompt ran, the final map entry is `completed` with nothing pending. -/
theorem c2_stop_signal_ignored_by_sequencer :
    (stopBatchUpdate (initBatchStatus 2)).status = "stopped" ∧
    (completeBatchUpdate (stopBatchUpdate (initBatchStatus 2)) 2 0 2).status = "completed" ∧
    (completeBatchUpdate (stopBatchUpdate (initBatchStatus 2)) 2 0 2).progress.pending = 0 := by
  refine ⟨by decide, by decide, by decide⟩

/-- C9: on every exit path of `processBatch` — launch failure, page-setup or
navigation exception, exhausted retries, screenshot failure, success — the
`finally` block reaches `browser.close()` exactly when a browser was
launched. -/
theorem c9_browser_closed_on_every_exit (env : BPEnv) :
    (processBatch env).closed = (processBatch env).launched := by
  unfold processBatch
  rcases env.launchThrows with _ | m
  · rcases env.pageSetupThrows with _ | m
    · rcases h : (if env.hasTargetUrl then env.gotoThrows else none) with _ | m <;> rfl
    · rfl
  · rfl

/-- C3 (counterexample): the clearing phase accepts the select-all+delete
strategy on a page where that strategy runs without throwing but observably
clears nothing, and `automateForm` reports a successful submission on a page
where the target site detected no submission: success is not tied to an
observable effect. -/
theorem c3_counterexample_effect_free_success :
    clearFieldStrategy pResidualSubmit taElem = some 0 ∧
    pResidualSubmit.selectDeleteClears taElem = false ∧
    (automateForm pResidualSubmit [] []).success = true ∧
    pResidualSubmit.submissionDetected = false := by
  refine ⟨by decide, by decide, by decide, by decide⟩

/-- C3 (amended): the clearing phase accepts the first strategy that does not
throw and the submission phase reports the method whose action did not throw;
no observable effect is consulted: the accepted clearing strategy and the
whole `automateForm` result are invariant under arbitrary changes to the
observable-effect oracles (`selectDeleteClears`, `fillClears`,
`submissionDetected`). -/
theorem c3_result_ignores_observable_effects (p : Page) (e : Elem)
    (ci cs : List String) (f g : Elem → Bool) (b : Bool) :
    automateForm
        { p with selectDeleteClears := f, fillClears := g, submissionDetected := b } ci cs
      = automateForm p ci cs ∧
    clearFieldStrategy
        { p with selectDeleteClears := f, fillClears := g, submissionDetected := b } e
      = clearFieldStrategy p e := by
  cases p
  exact ⟨rfl, rfl⟩

/-- C7: clearing is best-effort.  The `automateForm` result is invariant
under arbitrary changes to the clearing-strategy throw oracles — in
particular, when every clearing strategy throws the run still proceeds to
typing and the clearing failure alone never yields a failed result — and on
a concrete page where both strategies throw the interaction still succeeds. -/
theorem c7_clearing_never_fatal :
    (∀ (p : Page) (ci cs : List String) (f : Elem → Bool) (b : Bool) (g : Elem → Bool),
      automateForm { p with selectTextThrows := f, deleteKeyThrows := b, fillThrows := g } ci cs
        = automateForm p ci cs) ∧
    clearFieldStrategy pAllClearThrow taElem = none ∧
    (automateForm pAllClearThrow [] []).success = true := by
  refine ⟨?_, by decide, by decide⟩
  intro p ci cs f b g
  cases p
  rfl

/-- The role-specific pass distributes over catalog concatenation: the
second list is consulted only when the first produced nothing. -/
theorem primaryScan_append (q : String → QueryRes) :
    ∀ l₁ l₂ : List String,
      primaryScan q (l₁ ++ l₂) = (primaryScan q l₁).or (primaryScan q l₂) := by
  intro l₁ l₂
  induction l₁ with
  | nil => simp [primaryScan]
  | cons s rest ih =>
    simp only [List.cons_append, primaryScan]
    cases hq : q s with
    | err m => exact ih
    | found elems =>
      dsimp only
      cases hf : elems.find? interactable with
      | some e => rfl
      | none => exact ih

/-- Tagging every node of a query result with its selector commutes with the
first-match search. -/
theorem find?_map_pair (s : String) (elems : List Elem) :
    (elems.map (fun e => (s, e))).find? (fun se => interactable se.2)
      = (elems.find? interactable).map (fun e => (s, e)) := by
  induction elems with
  | nil => rfl
  | cons e t ih =>
    by_cases h : interactable e = true
    · simp [List.find?_cons, h]
    · simp only [Bool.not_eq_true] at h
      simp [List.find?_cons, h, ih]

/-- The role-specific pass is the first-match search over the concatenation
of every selector's query results, in selector order then node order. -/
theorem primaryScan_eq_find? (q : String → QueryRes) :
    ∀ l : List String,
      primaryScan q l
        = (l.flatMap (fun s => (queryElems q s).map (fun e => (s, e)))).find?
            (fun se => interactable se.2) := by
  intro l
  induction l with
  | nil => rfl
  | cons s rest ih =>
    rw [List.flatMap_cons, List.find?_append, find?_map_pair]
    simp only [primaryScan, queryElems]
    cases hq : q s with
    | err m =>
      dsimp only
      exact ih
    | found elems =>
      dsimp only
      cases hf : elems.find? interactable with
      | some e => rfl
      | none => exact ih

/-- C4: element resolution consults caller-supplied custom selectors strictly
before the default catalog, and within that order returns the first node of
the query API's node order that is visible and enabled; being a pure function
of the DOM-query oracle and the catalog, repeated resolution over an
identical DOM returns the same element (first-match, not best-match). -/
theorem c4_resolution_order_first_match (q : String → QueryRes) (custom : List String) :
    primaryScan q (custom ++ defaultInputSelectors)
        = (primaryScan q custom).or (primaryScan q defaultInputSelectors) ∧
    primaryScan q (custom ++ defaultInputSelectors)
        = ((custom ++ defaultInputSelectors).flatMap
              (fun s => (queryElems q s).map (fun e => (s, e)))).find?
            (fun se => interactable se.2) :=
  ⟨primaryScan_append q custom defaultInputSelectors,
   primaryScan_eq_find? q (custom ++ defaultInputSelectors)⟩

/-- C5: `automateForm` produces a failure result carrying the
`NO_INPUT_ELEMENT_FOUND` code exactly when input-element resolution (the
role-specific pass followed by the generic focusable fallback pass) yields no
element; the failure is a returned result — `automateForm` is a total
function into `AutomationResult`, mirroring the outer catch — never an
escaping exception.  The hypothesis excludes the pathological environment in
which the raw message of a typing error itself begins with the
`NO_INPUT_ELEMENT_FOUND` segment (typing errors are the only ones reaching
the catch without a code prefix of the executor's own). -/
theorem c5_no_input_error_code_iff (p : Page) (ci cs : List String)
    (h : ∀ e m, p.typeThrows e = some m → extractCode m ≠ "NO_INPUT_ELEMENT_FOUND") :
    ((automateForm p ci cs).success = false ∧
        (automateForm p ci cs).code = some "NO_INPUT_ELEMENT_FOUND")
      ↔ (primaryScan p.query (ci ++ defaultInputSelectors) = none ∧
          fallbackScan p.query focusableSelectors none = none) := by
  have hsplit : findTarget p.query ci = none ↔
      (primaryScan p.query (ci ++ defaultInputSelectors) = none ∧
        fallbackScan p.query focusableSelectors none = none) := by
    unfold findTarget
    cases hp : primaryScan p.query (ci ++ defaultInputSelectors) with
    | some se => simp
    | none => simp
  refine Iff.trans ?_ hsplit
  cases hT : findTarget p.query ci with
  | none =>
    have hs : (automateForm p ci cs).success = false := by
      simp [automateForm, hT, failRes]
    have hc : (automateForm p ci cs).code = some "NO_INPUT_ELEMENT_FOUND" := by
      simp only [automateForm, hT, failRes]
      decide
    exact iff_of_true ⟨hs, hc⟩ rfl
  | some target =>
    refine iff_of_false ?_ (by simp [hT])
    intro hLHS
    cases hcf : clickFocusOutcome p target with
    | some m =>
      simp only [automateForm, hT, hcf, failRes, extractCode] at hLHS
      simp at hLHS
    | none =>
      cases hty : p.typeThrows target with
      | some m =>
        simp only [automateForm, hT, hcf, hty, failRes] at hLHS
        exact h target m hty (Option.some.inj hLHS.2)
      | none =>
        cases hsub : submitScan p.query (cs ++ defaultSubmitSelectors) none with
        | mk fst snd =>
          cases fst with
          | some btn =>
            cases hck : p.clickThrows btn with
            | some m =>
              simp only [automateForm, hT, hcf, hty, hsub, hck, failRes, extractCode] at hLHS
              simp at hLHS
            | none =>
              simp only [automateForm, hT, hcf, hty, hsub, hck] at hLHS
              simp at hLHS
          | none =>
            cases hek : p.enterKeyThrows with
            | some m =>
              simp only [automateForm, hT, hcf, hty, hsub, hek, failRes, extractCode] at hLHS
              simp at hLHS
            | none =>
              simp only [automateForm, hT, hcf, hty, hsub, hek] at hLHS
              simp at hLHS

/-- C5 witness: on a page where every query matches nothing, `automateForm`
returns (not throws) the `NO_INPUT_ELEMENT_FOUND` failure result. -/
theorem c5_no_input_error_code_iff_witness :
    (automateForm pEmptyPage [] []).success = false ∧
    (automateForm pEmptyPage [] []).code = some "NO_INPUT_ELEMENT_FOUND" := by
  have hiff := c5_no_input_error_code_iff pEmptyPage [] []
    (by intro e m hm; simp [pEmptyPage, basePage] at hm)
  exact hiff.mpr ⟨by decide, by decide⟩

/-- `retryAction` invokes the wrapped operation at most once per remaining
loop iteration. -/
theorem retryAux_attempts_le {α : Type} (fn : Nat → Except String α) (d : Nat) :
    ∀ (k a : Nat), (retryAux fn d a k).2.1 ≤ k := by
  intro k
  induction k with
  | zero => intro a; simp [retryAux]
  | succ k ih =>
    intro a
    simp only [retryAux]
    cases fn a with
    | ok v => simp
    | error e =>
      by_cases hk : k = 0
      · simp [hk]
      · simp only [if_neg hk]
        exact Nat.succ_le_succ (ih (a + 1))

/-- Every delay `retryAction` waits is the fixed `retryDelay`. -/
theorem retryAux_delays_replicate {α : Type} (fn : Nat → Except String α) (d : Nat) :
    ∀ (k a : Nat), ∃ m, (retryAux fn d a k).2.2 = List.replicate m d := by
  intro k
  induction k with
  | zero => intro a; exact ⟨0, rfl⟩
  | succ k ih =>
    intro a
    simp only [retryAux]
    cases fn a with
    | ok v => exact ⟨0, rfl⟩
    | error e =>
      by_cases hk : k = 0
      · simp only [if_pos hk]; exact ⟨0, rfl⟩
      · simp only [if_neg hk]
        obtain ⟨m, hm⟩ := ih (a + 1)
        exact ⟨m + 1, by simp [hm, List.replicate_succ]⟩

/-- A constant list is non-decreasing. -/
theorem chainLe_replicate (m d : Nat) :
    List.Chain' (fun x y => x ≤ y) (List.replicate m d) := by
  induction m with
  | zero => simp
  | succ m ih =>
    rw [List.replicate_succ]
    refine List.chain'_cons'.mpr ⟨?_, ih⟩
    intro y hy
    cases m with
    | zero => simp at hy
    | succ m' =>
      rw [List.replicate_succ, List.head?_cons] at hy
      cases hy
      exact le_refl d

/-- If every attempt up to the budget fails, `retryAction` ends with the error
of the last attempt, unchanged. -/
theorem retryAux_all_fail {α : Type} (fn : Nat → Except String α) (d : Nat) (E : Nat → String) :
    ∀ (k a : Nat), 1 ≤ k → (∀ i, a ≤ i → i < a + k → fn i = .error (E i)) →
      (retryAux fn d a k).1 = .error (E (a + k - 1)) := by
  intro k
  induction k with
  | zero => intro a h; exact absurd h (by omega)
  | succ k ih =>
    intro a _ hall
    simp only [retryAux]
    have hfa : fn a = .error (E a) := hall a (le_refl a) (by omega)
    rw [hfa]
    by_cases hk : k = 0
    · subst hk
      simp
    · simp only [if_neg hk]
      have hrec := ih (a + 1) (by omega)
        (fun i h1 h2 => hall i (by omega) (by omega))
      have harith : a + 1 + k - 1 = a + (k + 1) - 1 := by omega
      rw [harith] at hrec
      exact hrec

/-- `bpLoop` makes at most one `automateForm` attempt per remaining loop
iteration. -/
theorem bpLoop_attempts_le (env : BPEnv) :
    ∀ (k a : Nat) (acc : Option FormOutcome), (bpLoop env a k acc).2.1 ≤ k := by
  intro k
  induction k with
  | zero => intro a acc; simp [bpLoop]
  | succ k ih =>
    intro a acc
    simp only [bpLoop]
    cases env.formAttempt a with
    | success => simp
    | failedResult e =>
      by_cases hk : k = 0
      · simp [hk]
      · simp only [if_neg hk]
        exact Nat.succ_le_succ (ih (a + 1) (some (.failedResult e)))
    | thrown m =>
      by_cases hk : k = 0
      · simp [hk]
      · simp only [if_neg hk]
        exact Nat.succ_le_succ (ih (a + 1) acc)

/-- Every delay `bpLoop` waits is the fixed `retryDelay`. -/
theorem bpLoop_delays_replicate (env : BPEnv) :
    ∀ (k a : Nat) (acc : Option FormOutcome),
      ∃ m, (bpLoop env a k acc).2.2 = List.replicate m env.retryDelay := by
  intro k
  induction k with
  | zero => intro a acc; exact ⟨0, rfl⟩
  | succ k ih =>
    intro a acc
    simp only [bpLoop]
    cases env.formAttempt a with
    | success => exact ⟨0, rfl⟩
    | failedResult e =>
      by_cases hk : k = 0
      · simp only [if_pos hk]; exact ⟨0, rfl⟩
      · simp only [if_neg hk]
        obtain ⟨m, hm⟩ := ih (a + 1) (some (.failedResult e))
        exact ⟨m + 1, by simp [hm, List.replicate_succ]⟩
    | thrown m =>
      by_cases hk : k = 0
      · simp only [if_pos hk]; exact ⟨0, rfl⟩
      · simp only [if_neg hk]
        obtain ⟨m', hm⟩ := ih (a + 1) acc
        exact ⟨m' + 1, by simp [hm, List.replicate_succ]⟩

/-- `processBatch` attempts `automateForm` at most `maxRetries` times. -/
theorem processBatch_attempts_le (env : BPEnv) :
    (processBatch env).attempts ≤ env.maxRetries := by
  unfold processBatch
  rcases env.launchThrows with _ | m
  · rcases env.pageSetupThrows with _ | m
    · rcases h : (if env.hasTargetUrl then env.gotoThrows else none) with _ | m
      · exact bpLoop_attempts_le env env.maxRetries 0 none
      · simp
    · simp
  · simp

/-- The delays `processBatch` waits between attempts form a constant list. -/
theorem processBatch_delays_replicate (env : BPEnv) :
    ∃ m, (processBatch env).delays = List.replicate m env.retryDelay := by
  unfold processBatch
  rcases env.launchThrows with _ | m
  · rcases env.pageSetupThrows with _ | m
    · rcases h : (if env.hasTargetUrl then env.gotoThrows else none) with _ | m
      · exact bpLoop_delays_replicate env env.maxRetries 0 none
      · exact ⟨0, rfl⟩
    · exact ⟨0, rfl⟩
  · exact ⟨0, rfl⟩

/-- C6: the retry controller `retryAction` with budget `N ≥ 1` invokes the
wrapped operation at most `N` times; the delays it waits are the constant
`retryDelay`, hence non-decreasing in the attempt index; if every attempt
fails, the error of the last attempt (index `N-1`) is propagated unchanged.
The second retry loop cited by the claim, the `processBatch` variant, also
attempts its operation at most `maxRetries` times with non-decreasing
(constant) delays. -/
theorem c6_retry_controller {α : Type} (fn : Nat → Except String α)
    (N d : Nat) (E : Nat → String) (env : BPEnv) (hN : 1 ≤ N) :
    (retryAction fn N d).2.1 ≤ N ∧
    List.Chain' (fun x y => x ≤ y) (retryAction fn N d).2.2 ∧
    ((∀ i, i < N → fn i = .error (E i)) → (retryAction fn N d).1 = .error (E (N - 1))) ∧
    (processBatch env).attempts ≤ env.maxRetries ∧
    List.Chain' (fun x y => x ≤ y) (processBatch env).delays := by
  refine ⟨retryAux_attempts_le fn d N 0, ?_, ?_, processBatch_attempts_le env, ?_⟩
  · obtain ⟨m, hm⟩ := retryAux_delays_replicate fn d N 0
    rw [retryAction, hm]
    exact chainLe_replicate m d
  · intro hall
    have h := retryAux_all_fail fn d E N 0 hN (fun i h1 h2 => hall i (by omega))
    simpa using h
  · obtain ⟨m, hm⟩ := processBatch_delays_replicate env
    rw [hm]
    exact chainLe_replicate m env.retryDelay

/-- All-failing operation used to exercise the retry controller. -/
def fnAllFail : Nat → Except String Nat := fun _ => .error "boom"

/-- A `processBatch` environment whose every `automateForm` attempt throws. -/
def envC6 : BPEnv :=
  { launchThrows := none, pageSetupThrows := none, hasTargetUrl := false,
    gotoThrows := none, waitForIdle := true, networkIdleTimesOut := false,
    maxRetries := 3, retryDelay := 500,
    formAttempt := fun _ => .thrown "boom", screenshotThrows := false }

/-- C6 witness: with budget 2 and an operation that always fails, the
controller runs at most twice and ends with the last attempt's error. -/
theorem c6_retry_controller_witness :
    (retryAction fnAllFail 2 500).1 = Except.error "boom" ∧
    (retryAction fnAllFail 2 500).2.1 ≤ 2 := by
  have h := c6_retry_controller fnAllFail 2 500 (fun _ => "boom") envC6 (by decide)
  exact ⟨h.2.2.1 (fun i _ => rfl), h.1⟩

/-- When the submit scan ends by break (second component `true`), the node it
returns passed the visibility and enabledness checks. -/
theorem submitScan_break (q : String → QueryRes) :
    ∀ (l : List String) (acc : Option Elem),
      (submitScan q l acc).2 = true →
      ∃ b, (submitScan q l acc).1 = some b ∧ interactable b = true := by
  intro l
  induction l with
  | nil => intro acc h; simp [submitScan] at h
  | cons s rest ih =>
    intro acc
    simp only [submitScan]
    cases hq : q s with
    | err m => exact ih acc
    | found elems =>
      dsimp only
      cases hh : elems.head? with
      | none => exact ih none
      | some e =>
        cases he : interactable e with
        | true => intro _; exact ⟨e, by simp [he], he⟩
        | false =>
          simp only [he]
          intro h
          exact ih (some e) (by simpa [he] using h)

/-- C8 (counterexample): on `pResidualSubmit` no submit selector matches any
visible and enabled node — so no submit control is resolved — yet the
successful interaction reports `method = "button_click"`: the scan's residual
value (the hidden node matched by the last selector examined) is clicked
instead of falling back to the Enter key. -/
theorem c8_counterexample_residual_click :
    (automateForm pResidualSubmit [] []).success = true ∧
    (automateForm pResidualSubmit [] []).method = some "button_click" ∧
    (defaultSubmitSelectors.all (fun s =>
        match pResidualSubmit.query s with
        | .err _ => true
        | .found l => l.all (fun e => !interactable e))) = true := by
  refine ⟨by decide, by decide, by decide⟩

/-- C8 (amended): in a successful interaction, if the submit scan broke on a
visible and enabled control, that control is the one clicked and the method
is `button_click`; the Enter key is used exactly when the scan ends with a
null `submitButton` — which, because the scan leaves a residual value, means
the last examined selector matched no node at all, not merely that no
visible+enabled control exists. -/
theorem c8_submission_method (p : Page) (ci cs : List String)
    (hs : (automateForm p ci cs).success = true) :
    ((automateForm p ci cs).method = some "enter_key"
        ↔ (submitScan p.query (cs ++ defaultSubmitSelectors) none).1 = none) ∧
    ((submitScan p.query (cs ++ defaultSubmitSelectors) none).2 = true →
      (automateForm p ci cs).method = some "button_click" ∧
      ∃ b, (submitScan p.query (cs ++ defaultSubmitSelectors) none).1 = some b ∧
        interactable b = true) := by
  cases hT : findTarget p.query ci with
  | none => simp [automateForm, hT, failRes] at hs
  | some target =>
    cases hcf : clickFocusOutcome p target with
    | some m => simp [automateForm, hT, hcf, failRes] at hs
    | none =>
      cases hty : p.typeThrows target with
      | some m => simp [automateForm, hT, hcf, hty, failRes] at hs
      | none =>
        cases hsub : submitScan p.query (cs ++ defaultSubmitSelectors) none with
        | mk fst snd =>
          cases fst with
          | some btn =>
            cases hck : p.clickThrows btn with
            | some m => simp [automateForm, hT, hcf, hty, hsub, hck, failRes] at hs
            | none =>
              constructor
              · simp [automateForm, hT, hcf, hty, hsub, hck]
              · intro hbreak
                refine ⟨by simp [automateForm, hT, hcf, hty, hsub, hck], ?_⟩
                have h := submitScan_break p.query (cs ++ defaultSubmitSelectors) none
                  (by rw [hsub]; exact hbreak)
                rw [hsub] at h
                exact h
          | none =>
            cases hek : p.enterKeyThrows with
            | some m => simp [automateForm, hT, hcf, hty, hsub, hek, failRes] at hs
            | none =>
              constructor
              · simp [automateForm, hT, hcf, hty, hsub, hek]
              · intro hbreak
                obtain ⟨b, hb, _⟩ := submitScan_break p.query (cs ++ defaultSubmitSelectors) none
                  (by rw [hsub]; exact hbreak)
                rw [hsub] at hb
                simp at hb

/-- C8 witness: with a genuine visible+enabled submit button the scan breaks
and the reported method is `button_click`. -/
theorem c8_submission_method_witness :
    (automateForm pRealSubmit [] []).method = some "button_click" := by
  have h := c8_submission_method pRealSubmit [] [] (by decide)
  exact (h.2 (by decide)).1

/-- The fallback pass reads only the head node of each selector's query: two
environments agreeing on every single-node probe over a selector list produce
the same scan result from the same accumulator. -/
theorem fallbackScan_first_node_only (q1 q2 : String → QueryRes) :
    ∀ (l : List String) (acc : Option Elem),
      (∀ s ∈ l, queryFirst q1 s = queryFirst q2 s) →
      fallbackScan q1 l acc = fallbackScan q2 l acc := by
  intro l
  induction l with
  | nil => intro acc _; rfl
  | cons s rest ih =>
    intro acc h
    have hs : queryFirst q1 s = queryFirst q2 s := h s (List.mem_cons_self s rest)
    have hrest : ∀ x ∈ rest, queryFirst q1 x = queryFirst q2 x :=
      fun x hx => h x (List.mem_cons_of_mem s hx)
    simp only [fallbackScan]
    cases hq1 : q1 s with
    | err m1 =>
      cases hq2 : q2 s with
      | err m2 => exact ih acc hrest
      | found l2 => simp [queryFirst, hq1, hq2] at hs
    | found l1 =>
      cases hq2 : q2 s with
      | err m2 => simp [queryFirst, hq1, hq2] at hs
      | found l2 =>
        have hh : l1.head? = l2.head? := by
          simpa [queryFirst, hq1, hq2] using hs
        dsimp only
        rw [← hh]
        cases hh1 : l1.head? with
        | none => exact ih none hrest
        | some e =>
          dsimp only
          cases he : e.visible with
          | true => rfl
          | false =>
            rw [if_neg (by simp), if_neg (by simp)]
            exact ih (some e) hrest

/-- C10: the generic fallback pass examines only the first node each fallback
selector matches (environments agreeing on those heads are
indistinguishable), tests only visibility: on `pFallbackDisabled` it returns
a visible but disabled element, and on `pFallbackSkip` — whose `button` list
has a hidden head followed by a visible, enabled node — it skips the later
visible match and finds nothing. -/
theorem c10_fallback_single_node_visibility_only (q1 q2 : String → QueryRes)
    (h : ∀ s ∈ focusableSelectors, queryFirst q1 s = queryFirst q2 s) :
    fallbackScan q1 focusableSelectors none = fallbackScan q2 focusableSelectors none ∧
    (fallbackScan pFallbackDisabled.query focusableSelectors none = some visDisabledBtn ∧
      visDisabledBtn.visible = true ∧ visDisabledBtn.enabled = false) ∧
    (fallbackScan pFallbackSkip.query focusableSelectors none = none ∧
      pFallbackSkip.query "button" = QueryRes.found [hiddenBtn2, visEnabledBtn] ∧
      hiddenBtn2.visible = false ∧ interactable visEnabledBtn = true) := by
  refine ⟨fallbackScan_first_node_only q1 q2 focusableSelectors none h, by decide, by decide⟩

/-- C10 witness: the two concrete pages differing only behind the head nodes
of their fallback probes resolve identically. -/
theorem c10_fallback_single_node_visibility_only_witness :
    fallbackScan pFallbackDisabled.query focusableSelectors none
      = fallbackScan pFallbackDisabledB.query focusableSelectors none := by
  have h := c10_fallback_single_node_visibility_only
    pFallbackDisabled.query pFallbackDisabledB.query (by decide)
  exact h.1

/-- While the cumulative failure count stays below `maxRetries`, the prompt
loop processes every prompt, pushing one record per outcome and tracking the
success/failure counts of the list. -/
theorem runBatchAux_no_abort (mr : Nat) :
    ∀ (os : List PromptOutcome) (s f : Nat), thrownCount os + f < mr →
      runBatchAux mr os s f = (os.map recordOf, s + okCount os, f + thrownCount os) := by
  intro os
  induction os with
  | nil => intro s f _; simp [runBatchAux, okCount, thrownCount]
  | cons o rest ih =>
    intro s f h
    cases o with
    | ok r =>
      have hcnt : thrownCount (PromptOutcome.ok r :: rest) = thrownCount rest := by
        simp [thrownCount, List.countP_cons]
      simp only [runBatchAux]
      rw [ih (s + 1) f (by omega)]
      simp only [List.map_cons, Prod.mk.injEq, okCount, thrownCount, List.countP_cons]
      refine ⟨by trivial, by simp; omega, by simp⟩
    | thrown m =>
      have hcnt : thrownCount (PromptOutcome.thrown m :: rest) = thrownCount rest + 1 := by
        simp [thrownCount, List.countP_cons]
      have hf1 : ¬ (f + 1 ≥ mr) := by omega
      simp only [runBatchAux, if_neg hf1]
      rw [ih s (f + 1) (by omega)]
      simp only [List.map_cons, Prod.mk.injEq, okCount, thrownCount, List.countP_cons]
      refine ⟨by trivial, by simp, by simp; omega⟩

/-- Once the list holds enough rejections, the loop stops with a failure
count of exactly `maxRetries`. -/
theorem runBatchAux_abort (mr : Nat) :
    ∀ (os : List PromptOutcome) (s f : Nat), f < mr → mr ≤ f + thrownCount os →
      (runBatchAux mr os s f).2.2 = mr := by
  intro os
  induction os with
  | nil =>
    intro s f h1 h2
    simp [thrownCount] at h2
    omega
  | cons o rest ih =>
    intro s f h1 h2
    cases o with
    | ok r =>
      have hcnt : thrownCount (PromptOutcome.ok r :: rest) = thrownCount rest := by
        simp [thrownCount, List.countP_cons]
      simp only [runBatchAux]
      exact ih (s + 1) f h1 (by omega)
    | thrown m =>
      have hcnt : thrownCount (PromptOutcome.thrown m :: rest) = thrownCount rest + 1 := by
        simp [thrownCount, List.countP_cons]
      by_cases hge : f + 1 ≥ mr
      · simp only [runBatchAux, if_pos hge]
        omega
      · simp only [runBatchAux, if_neg hge]
        exact ih s (f + 1) (by omega) (by omega)

/-- A resolved `automateForm` result, as observed by the prompt loop. -/
def okResultLite : AutomationResult :=
  { success := true, method := some "enter_key", errorMsg := none, code := none }

/-- Three prompts: the first two iterations reject, the third would resolve.
With the source's default `max_retries = 2` the loop aborts after the second
failure. -/
def cexOutcomes : List PromptOutcome :=
  [.thrown "E1: boom", .thrown "E2: boom", .ok okResultLite]

/-- C1 (counterexample): a non-stopped run of the `/api/run-batch` prompt
loop on three prompts, the first two of which fail, with the endpoint's
default `max_retries = 2`: the claim says every prompt is processed and the
batch is marked `completed` regardless of failures, but the loop breaks after
the second failure (only two records are pushed, the third prompt is never
attempted) and the final status is `failed`. -/
theorem c1_counterexample_abort_and_status :
    ¬ ((runBatchLoop cexOutcomes 2).results.length = cexOutcomes.length ∧
       (runBatchLoop cexOutcomes 2).finalStatus = "completed") := by
  decide

/-- C1 (amended): with `maxRetries ≥ 1`, the prompt loop records a rejected
iteration as `failed` and continues to the next prompt only while the
cumulative failure count stays below `maxRetries` — in that regime every
prompt is processed (one record per outcome, a resolved promise recorded
`completed` even when its result carries `success:false`) and the final
status follows the three-way rule (`completed` iff no rejection, `failed`
iff additionally no success, else `completed_with_errors`); once the
rejections reach `maxRetries` the loop aborts with failure count exactly
`maxRetries` and the batch is not marked `completed`. -/
theorem c1_batch_loop_amended (outcomes : List PromptOutcome) (mr : Nat) (hmr : 1 ≤ mr) :
    (thrownCount outcomes < mr →
      (runBatchLoop outcomes mr).results = outcomes.map recordOf ∧
      (runBatchLoop outcomes mr).successCount = okCount outcomes ∧
      (runBatchLoop outcomes mr).failureCount = thrownCount outcomes ∧
      (runBatchLoop outcomes mr).finalStatus
        = finalStatusOf (okCount outcomes) (thrownCount outcomes)) ∧
    (mr ≤ thrownCount outcomes →
      (runBatchLoop outcomes mr).failureCount = mr ∧
      (runBatchLoop outcomes mr).finalStatus ≠ "completed") := by
  constructor
  · intro h
    have heq := runBatchAux_no_abort mr outcomes 0 0 (by omega)
    simp only [runBatchLoop, heq]
    refine ⟨by trivial, by simp, by simp, by simp⟩
  · intro h
    have hfc : (runBatchAux mr outcomes 0 0).2.2 = mr :=
      runBatchAux_abort mr outcomes 0 0 (by omega) (by omega)
    constructor
    · simp only [runBatchLoop]
      exact hfc
    · simp only [runBatchLoop, finalStatusOf, hfc]
      have hmr0 : ¬ (mr = 0) := by omega
      simp only [if_neg hmr0]
      by_cases hs0 : (runBatchAux mr outcomes 0 0).2.1 = 0
      · simp only [if_pos hs0]
        decide
      · simp only [if_neg hs0]
        decide

/-- C1 witness: the amended abort behaviour at the concrete counterexample
input — failure count 2, batch not `completed`. -/
theorem c1_batch_loop_amended_witness :
    (runBatchLoop cexOutcomes 2).failureCount = 2 ∧
    (runBatchLoop cexOutcomes 2).finalStatus ≠ "completed" := by
  have h := c1_batch_loop_amended cexOutcomes 2 (by decide)
  exact h.2 (by decide)

end AutoPromptr
